import Mathlib

/-!
Verification of the excel-analyzer filtering pipeline.

The repository is a set of near-duplicate drafts of one streamlit page
(`GEMScan.py`, `GEMScan_FULL_UPDATED.py`, `GEMScan_FINAL_GUARANTEED_FIXED.py`
plus a snippet).  This file gives a shallow embedding of the parts the claims
are about:

* cells of a string column are `Option String` (`none` is pandas `NaN`);
  `pyStr` is Python `str` on such a cell (`str(nan) = "nan"`);
* a filter condition (pandas boolean `Series`) is a `List Bool` aligned with
  the row list; `maskRows` is boolean indexing `df[mask]`;
* the per-column string-filter conditions of `GEMScan.py` lines 110-118 are
  `anyCondition` / `allCondition`; the corresponding block of
  `GEMScan_FINAL_GUARANTEED_FIXED.py` lines 142-146 is `anyConditionFinal`
  (its second assignment overwrites the first, which the embedding mirrors
  with a shadowing `let`);
* the mask combination and row selection of `GEMScan.py` lines 120-126 is
  `combinedFilter` / `filteredDf`; the variant of
  `GEMScan_FINAL_GUARANTEED_FIXED.py` lines 148-153 is `filteredDfFinal`
  (`none` models the `NameError` that the missing assignment leaves behind
  when there is no filter condition);
* the post-filter control flow of `GEMScan.py` lines 128-200 (empty-result
  guard with `st.stop`, then sort, preview, download, chart section) is the
  trace function `passSteps`;
* the fixed cumulative aggregation of `GEMScan.py` lines 157-171 is
  `valid_plants` / `annual` / `cumulative` over rows of `PlantRow`;
* the spreadsheet serializer `to_excel_bytes` (`GEMScan.py` lines 41-45,
  always `index=True`) is modelled at cell-grid granularity over `Frame`;
* the dead cumulative-by-type block of `GEMScan_FINAL_GUARANTEED_FIXED.py`
  lines 261-307 is the trace function `cumulativeBlockFinal`;
* the reset handler of `GEMScan.py` lines 74-78 is `resetAllFilters` over an
  association-list model of `st.session_state`.
-/

namespace ExcelAnalyzer

/-- Python `str` applied to a cell of a pandas string column: a real string is
returned unchanged, a missing value (`NaN`) prints as `"nan"`. -/
def pyStr : Option String → String
  | some s => s
  | none => "nan"

/-- Python's `needle in hay` test on strings: contiguous substring
containment, decided over the character lists. -/
def pyStrContains (hay needle : String) : Bool :=
  decide (needle.data <:+: hay.data)

/-- `GEMScan.py` line 115: `df[column].isin(selected_options)`.  Membership is
tested on the raw cell value, so a missing value never matches (pandas `isin`
compares `NaN` with the selected strings and yields `False`). -/
def anyCondition (col : List (Option String)) (sel : List String) : List Bool :=
  col.map fun c =>
    match c with
    | some s => sel.contains s
    | none => false

/-- `GEMScan.py` line 117:
`df[column].apply(lambda x: all(opt in str(x) for opt in selected_options))`. -/
def allCondition (col : List (Option String)) (sel : List String) : List Bool :=
  col.map fun c => sel.all fun opt => pyStrContains (pyStr c) opt

/-- `GEMScan_FINAL_GUARANTEED_FIXED.py` lines 143-145: inside the
`Match ANY` branch the membership condition
`df[column].astype(str).isin(selected_options)` is computed and then
immediately overwritten by the substring condition on the next line (there is
no `else`), which the shadowing `let` reproduces. -/
def anyConditionFinal (col : List (Option String)) (sel : List String) : List Bool :=
  let cond := col.map fun c => sel.contains (pyStr c)
  let cond := col.map fun c => sel.all fun opt => pyStrContains (pyStr c) opt
  cond

/-- `GEMScan.py` lines 121-123: the first condition is the accumulator and
every further condition is combined elementwise with `&` when the sidebar
logic mode is the string `"AND"` and with `|` otherwise. -/
def combinedFilter (logicMode : String) (conds : List (List Bool)) : List Bool :=
  match conds with
  | [] => []
  | c :: cs =>
    cs.foldl
      (fun acc cond =>
        if logicMode = "AND" then List.zipWith (fun a b => a && b) acc cond
        else List.zipWith (fun a b => a || b) acc cond)
      c

/-- Pandas boolean indexing `df[mask]`: keep the rows at the positions where
the mask is `true`. -/
def maskRows {α : Type} : List Bool → List α → List α
  | [], _ => []
  | _ :: _, [] => []
  | true :: m, x :: xs => x :: maskRows m xs
  | false :: m, _ :: xs => maskRows m xs

/-- `GEMScan.py` lines 120-126: with at least one condition the rows selected
by the combined filter, otherwise a copy of the full table. -/
def filteredDf {α : Type} (logicMode : String) (conds : List (List Bool))
    (df : List α) : List α :=
  if conds.isEmpty then df
  else maskRows (combinedFilter logicMode conds) df

/-- `GEMScan_FINAL_GUARANTEED_FIXED.py` lines 148-153: the masked selection on
line 152 is immediately overwritten by `filtered_df = df.copy()` on line 153
(the `else:` that `GEMScan.py` line 125 still has was lost), and with no
condition at all `filtered_df` is never assigned, which `none` models (the
script then dies with a `NameError` at line 155). -/
def filteredDfFinal {α : Type} (logicMode : String) (conds : List (List Bool))
    (df : List α) : Option (List α) :=
  if conds.isEmpty then none
  else
    let filtered := maskRows (combinedFilter logicMode conds) df
    let filtered := df
    some filtered

/-- The steps of one pass of `GEMScan.py` after the filtered table exists. -/
inductive PStep where
  | warnEmpty
  | sortStep
  | previewStep
  | exportStep
  | chartStep
  deriving DecidableEq

/-- `GEMScan.py` lines 128-200: when the filtered table is empty the script
warns and calls `st.stop()`, so nothing after line 130 runs; otherwise it
sorts, shows the preview, offers the download and runs the chart section. -/
def passSteps {α : Type} (filtered : List α) : List PStep :=
  if filtered.isEmpty then [PStep.warnEmpty]
  else [PStep.sortStep, PStep.previewStep, PStep.exportStep, PStep.chartStep]

/-- One row of the table as the fixed cumulative aggregation of `GEMScan.py`
lines 157-171 sees it: the `to_numeric(..., errors="coerce")` images of
`Capacity (MW)` and `Start year` (`none` is `NaN`) and the `Type` cell. -/
structure PlantRow where
  cap : Option ℚ
  year : Option Int
  ptype : Option String
  deriving DecidableEq

/-- The row predicate of `GEMScan.py` lines 157-162: a comparison with a
missing value is `False`, so the row is kept exactly when capacity is present
and between 10 and 300 inclusive, the start year is present and at least
2015, and the type cell is non-null. -/
def keepPlant (r : PlantRow) : Bool :=
  (match r.cap with
   | some c => decide (10 ≤ c) && decide (c ≤ 300)
   | none => false) &&
  (match r.year with
   | some y => decide (2015 ≤ y)
   | none => false) &&
  r.ptype.isSome

/-- `GEMScan.py` lines 157-162: `valid_plants`. -/
def valid_plants (df : List PlantRow) : List PlantRow :=
  df.filter keepPlant

/-- The row index of `annual`: the distinct start years of the kept rows in
ascending order (`groupby` on the year level followed by `sort_index`). -/
def startYears (v : List PlantRow) : List Int :=
  List.insertionSort (fun a b => a ≤ b) (v.filterMap fun r => r.year).dedup

/-- The column index of `annual`: the distinct type values of the kept rows
(`unstack` on the `Type` level). -/
def typesList (v : List PlantRow) : List String :=
  (v.filterMap fun r => r.ptype).dedup

/-- `groupby(["Start year", "Type"]).size()`: the number of kept rows with
the given year and type. -/
def sizeYT (v : List PlantRow) (y : Int) (t : String) : ℕ :=
  (v.filter fun r => decide (r.year = some y) && decide (r.ptype = some t)).length

/-- `GEMScan.py` line 170: the year-by-type count table, year rows ascending,
absent combinations filled with 0 (`unstack(fill_value=0).sort_index()`). -/
def annual (df : List PlantRow) : List (Int × List (String × ℕ)) :=
  let v := valid_plants df
  (startYears v).map fun y => (y, (typesList v).map fun t => (t, sizeYT v y t))

/-- The cell of `annual.cumsum()` at row `y`: because the row index is the
sorted deduplicated year list, the running sum down a column equals the sum
of the counts over the index years that are at most `y`. -/
def cumYT (v : List PlantRow) (y : Int) (t : String) : ℕ :=
  (((startYears v).filter fun z => decide (z ≤ y)).map fun z => sizeYT v z t).sum

/-- `GEMScan.py` line 171: `cumulative = annual.cumsum()`. -/
def cumulative (df : List PlantRow) : List (Int × List (String × ℕ)) :=
  let v := valid_plants df
  (startYears v).map fun y => (y, (typesList v).map fun t => (t, cumYT v y t))

/-- The three-row example table of the claim: two 2015 Coal rows and one 2016
Gas row, all with an in-range capacity. -/
def exDf : List PlantRow :=
  [⟨some 100, some 2015, some "Coal"⟩,
   ⟨some 100, some 2015, some "Coal"⟩,
   ⟨some 100, some 2016, some "Gas"⟩]

/-- A table as the exporter sees it: index name (empty for the default
unnamed integer index of a filtered table, a column label for a pivot), one
index label per row, the column headers, and the body cells. -/
structure Frame where
  indexName : String
  indexCells : List String
  header : List String
  rows : List (List String)

/-- `GEMScan.py` lines 41-45 at cell-grid granularity:
`df.to_excel(writer, index=True)` writes a header row with the index name in
the first cell and then every data row prefixed with its index label.  The
same helper serves the filtered-table download (line 141) and the cumulative
pivot download (line 197). -/
def to_excel_bytes (f : Frame) : List (List String) :=
  (f.indexName :: f.header) :: List.zipWith (fun i r => i :: r) f.indexCells f.rows

/-- Modelled from the spec: the spec's exporter contract for a plain filtered
table, "omitting a synthetic index" — a grid holding only the headers and the
body cells, with no index column.  Stated for comparison with
`to_excel_bytes`. -/
def specNoIndexExport (f : Frame) : List (List String) :=
  f.header :: f.rows

/-- A one-row filtered table as handed to the download button of `GEMScan.py`
line 141: default unnamed integer index, label `"0"` on its single row. -/
def filteredFrameEx : Frame :=
  ⟨"", ["0"], ["Country"], [["X"]]⟩

/-- A table as the dead cumulative-by-type block of
`GEMScan_FINAL_GUARANTEED_FIXED.py` sees it: string column labels (the
loaders apply `df.columns.map(str)`) and the cells of each column. -/
structure PyTable where
  columns : List String
  cells : String → List (Option String)

/-- The observable steps of the cumulative-by-type block,
`GEMScan_FINAL_GUARANTEED_FIXED.py` lines 261-307. -/
inductive CStep where
  | warnNoType
  | raiseKeyError
  | warnNoData
  | renderChart
  | offerDownload
  deriving DecidableEq

/-- Column selection `df[label]`: a missing label raises `KeyError`; the
label `None` (the value `type_col` still has inside the
`if type_col is None:` branch) never names a column, because every column
label is a string. -/
def pySelect (t : PyTable) (c : Option String) :
    Except String (List (Option String)) :=
  match c with
  | some name =>
    if t.columns.contains name then Except.ok (t.cells name)
    else Except.error "KeyError"
  | none => Except.error "KeyError"

/-- `GEMScan_FINAL_GUARANTEED_FIXED.py` lines 261-307 with the indentation
the file actually has: the whole aggregation body sits inside the
`if type_col is None:` branch (so a found type column runs nothing), the
selection `source_df[[type_col, "Start year"]]` is made with `type_col`
equal to `None`, and the plot and the download sit inside the
`if group_counts.empty:` branch. -/
def cumulativeBlockFinal (t : PyTable) : List CStep :=
  match List.find? (fun c => t.columns.contains c)
      ["Type", "Plant Type", "Technology"] with
  | some _ => []
  | none =>
    CStep.warnNoType ::
      (match pySelect t none, pySelect t (some "Start year") with
       | Except.ok tcol, Except.ok ycol =>
         let gcEmpty :=
           ((tcol.zip ycol).filter fun p => p.1.isSome && p.2.isSome).isEmpty
         if gcEmpty then
           [CStep.warnNoData, CStep.renderChart, CStep.offerDownload]
         else []
       | _, _ => [CStep.raiseKeyError])

/-- Python `s.endswith(suf)`, decided over the character lists. -/
def pyEndsWith (s suf : String) : Bool :=
  decide (suf.data <:+ s.data)

/-- The key test of the reset handler, `GEMScan.py` line 76. -/
def isResetKey (k : String) : Bool :=
  pyEndsWith k "_select_all" || pyEndsWith k "_multiselect" || pyEndsWith k "_logic"

/-- `GEMScan.py` lines 74-78: the reset handler deletes every session-state
entry whose key matches `isResetKey` and leaves the rest of the mapping as it
was.  The session state is modelled as an association list in insertion
order. -/
def resetAllFilters (state : List (String × String)) : List (String × String) :=
  state.filter fun kv => !(isResetKey kv.1)

/-- Membership in a boolean-indexed row list: a row is kept exactly when it
sits at a position where the mask holds. -/
theorem mem_maskRows {α : Type} (m : List Bool) (xs : List α) (r : α) :
    r ∈ maskRows m xs ↔ ∃ i : ℕ, m[i]? = some true ∧ xs[i]? = some r := by
  induction m generalizing xs with
  | nil => simp [maskRows]
  | cons b m ih =>
    cases xs with
    | nil => simp [maskRows]
    | cons x xs =>
      cases b with
      | true =>
        simp only [maskRows, List.mem_cons, ih]
        constructor
        · rintro (rfl | ⟨i, h1, h2⟩)
          · exact ⟨0, by simp, by simp⟩
          · exact ⟨i + 1, by simpa using h1, by simpa using h2⟩
        · rintro ⟨i, h1, h2⟩
          cases i with
          | zero =>
            left
            exact (Option.some_inj.mp (by simpa using h2)).symm
          | succ i =>
            right
            exact ⟨i, by simpa using h1, by simpa using h2⟩
      | false =>
        simp only [maskRows, ih]
        constructor
        · rintro ⟨i, h1, h2⟩
          exact ⟨i + 1, by simpa using h1, by simpa using h2⟩
        · rintro ⟨i, h1, h2⟩
          cases i with
          | zero => simp at h1
          | succ i => exact ⟨i, by simpa using h1, by simpa using h2⟩

/-- Pointwise reading of an elementwise conjunction of two masks. -/
theorem zipWith_and_eq_some_true (a b : List Bool) (i : ℕ) :
    (List.zipWith (fun x y => x && y) a b)[i]? = some true ↔
      a[i]? = some true ∧ b[i]? = some true := by
  rw [List.getElem?_zipWith_eq_some]
  constructor
  · rintro ⟨x, y, hx, hy, hxy⟩
    have hx' : x = true := by cases x <;> cases y <;> simp_all
    have hy' : y = true := by cases x <;> cases y <;> simp_all
    subst hx' hy'
    exact ⟨hx, hy⟩
  · rintro ⟨hx, hy⟩
    exact ⟨true, true, hx, hy, rfl⟩

/-- Pointwise reading of a left fold of elementwise conjunctions. -/
theorem foldl_and_eq_some_true (cs : List (List Bool)) (acc : List Bool) (i : ℕ) :
    (cs.foldl (fun a m => List.zipWith (fun x y => x && y) a m) acc)[i]? = some true ↔
      acc[i]? = some true ∧ ∀ m ∈ cs, m[i]? = some true := by
  induction cs generalizing acc with
  | nil => simp
  | cons d cs ih =>
    simp only [List.foldl_cons, ih, zipWith_and_eq_some_true, List.mem_cons]
    constructor
    · rintro ⟨⟨h1, h2⟩, h3⟩
      refine ⟨h1, fun m hm => ?_⟩
      rcases hm with rfl | hm
      · exact h2
      · exact h3 m hm
    · rintro ⟨h1, h2⟩
      exact ⟨⟨h1, h2 d (Or.inl rfl)⟩, fun m hm => h2 m (Or.inr hm)⟩

/-- Pointwise reading of the combined filter in `AND` mode: the combined mask
holds at a position exactly when every active condition holds there. -/
theorem combinedFilter_and_eq_some_true (c : List Bool) (cs : List (List Bool)) (i : ℕ) :
    (combinedFilter "AND" (c :: cs))[i]? = some true ↔
      ∀ m ∈ c :: cs, m[i]? = some true := by
  have hfun :
      (fun (acc cond : List Bool) =>
          if ("AND" : String) = "AND" then List.zipWith (fun a b => a && b) acc cond
          else List.zipWith (fun a b => a || b) acc cond) =
        fun acc cond => List.zipWith (fun x y => x && y) acc cond := by
    funext acc cond
    rw [if_pos rfl]
  rw [combinedFilter, hfun, foldl_and_eq_some_true]
  simp only [List.mem_cons]
  constructor
  · rintro ⟨h1, h2⟩ m hm
    rcases hm with rfl | hm
    · exact h1
    · exact h2 m hm
  · intro h
    exact ⟨h c (Or.inl rfl), fun m hm => h m (Or.inr hm)⟩

/-- C1: in the `GEMScan_FINAL_GUARANTEED_FIXED.py` draft the `Match ANY`
string-filter condition is not exact set membership: on the cell
`"Coal Power Plant"` with selected values `{"Coal", "Plant"}` it yields
`true`, because line 145 overwrites the membership mask with the ALL-style
substring mask, while the membership condition of `GEMScan.py` line 115
yields `false` (and the ALL-mode condition of line 117 yields `true`, as the
claim states). -/
theorem c1_final_any_mode_is_substring_match :
    anyConditionFinal [some "Coal Power Plant"] ["Coal", "Plant"] = [true] ∧
      anyCondition [some "Coal Power Plant"] ["Coal", "Plant"] = [false] ∧
      allCondition [some "Coal Power Plant"] ["Coal", "Plant"] = [true] := by
  decide

/-- C2: in the `GEMScan_FINAL_GUARANTEED_FIXED.py` draft the filtered table
is not the rows selected by the combined mask: with a single all-false
condition on a one-row table it returns the full table, while the combine of
`GEMScan.py` lines 120-126 returns no rows. -/
theorem c2_final_filtered_table_ignores_mask :
    filteredDfFinal "AND" [[false]] [(7 : ℕ)] = some [7] ∧
      filteredDf "AND" [[false]] [(7 : ℕ)] = [] := by
  decide

/-- C3: with no active filter condition the filtering step returns the full
table, same rows in the same order (`GEMScan.py` lines 125-126). -/
theorem c3_no_filters_returns_full_table {α : Type} (logicMode : String)
    (df : List α) :
    filteredDf logicMode [] df = df := by
  simp [filteredDf]

/-- C5: when the filters eliminate every row, the pass reports the warning
and stops, so the sort, the preview, the export and the chart section never
run (`GEMScan.py` lines 128-130). -/
theorem c5_empty_result_short_circuit {α : Type} (filtered : List α)
    (h : filtered.isEmpty = true) :
    passSteps filtered = [PStep.warnEmpty] ∧
      (passSteps filtered).contains PStep.sortStep = false ∧
      (passSteps filtered).contains PStep.previewStep = false ∧
      (passSteps filtered).contains PStep.exportStep = false ∧
      (passSteps filtered).contains PStep.chartStep = false := by
  have e : passSteps filtered = [PStep.warnEmpty] := by
    simp [passSteps, h]
  refine ⟨e, ?_, ?_, ?_, ?_⟩ <;> rw [e] <;> decide

/-- Witness for C5 at the empty table. -/
theorem c5_witness :
    ([] : List ℕ).isEmpty = true ∧ passSteps ([] : List ℕ) = [PStep.warnEmpty] :=
  ⟨by decide, (c5_empty_result_short_circuit ([] : List ℕ) (by decide)).1⟩

/-- Unfolding of `filteredDf` on a non-empty condition list. -/
theorem filteredDf_cons {α : Type} (logicMode : String) (c : List Bool)
    (cs : List (List Bool)) (df : List α) :
    filteredDf logicMode (c :: cs) df =
      maskRows (combinedFilter logicMode (c :: cs)) df := by
  simp [filteredDf]

/-- Unfolding of `filteredDf` on the empty condition list. -/
theorem filteredDf_nil {α : Type} (logicMode : String) (df : List α) :
    filteredDf logicMode [] df = df := by
  simp [filteredDf]

/-- C4: under the global logic mode `AND`, filtering with a filter set `F`
keeps only rows that filtering with any subset `F'` of `F` also keeps —
removing filters can only add rows back, never remove them. -/
theorem c4_and_removing_filters_only_adds_rows {α : Type} (df : List α)
    (F F' : List (List Bool)) (hsub : F' ⊆ F) :
    ∀ r ∈ filteredDf "AND" F df, r ∈ filteredDf "AND" F' df := by
  intro r hr
  cases F with
  | nil =>
    have hF' : F' = [] := List.eq_nil_iff_forall_not_mem.mpr fun x hx =>
      List.not_mem_nil x (hsub hx)
    subst hF'
    simpa [filteredDf] using hr
  | cons c cs =>
    rw [filteredDf_cons, mem_maskRows] at hr
    obtain ⟨i, hm, hx⟩ := hr
    have hall : ∀ m ∈ c :: cs, m[i]? = some true :=
      (combinedFilter_and_eq_some_true c cs i).mp hm
    obtain ⟨hlt, hget⟩ := List.getElem?_eq_some_iff.mp hx
    cases hF' : F' with
    | nil =>
      rw [filteredDf_nil]
      exact hget ▸ List.getElem_mem hlt
    | cons c' cs' =>
      rw [filteredDf_cons, mem_maskRows]
      refine ⟨i, (combinedFilter_and_eq_some_true c' cs' i).mpr fun m hm' => ?_, hx⟩
      exact hall m (hsub (hF' ▸ hm'))

/-- Witness for C4: dropping the second of two masks recovers a row. -/
theorem c4_witness :
    ([[true, false, true]] : List (List Bool)) ⊆
        [[true, false, true], [false, false, true]] ∧
      (30 : ℕ) ∈ filteredDf "AND" [[true, false, true]] [10, 20, 30] := by
  have hsub : ([[true, false, true]] : List (List Bool)) ⊆
      [[true, false, true], [false, false, true]] := by
    intro x hx
    simp only [List.mem_singleton] at hx
    simp [hx]
  exact ⟨hsub,
    c4_and_removing_filters_only_adds_rows [10, 20, 30]
      [[true, false, true], [false, false, true]] [[true, false, true]]
      hsub 30 (by decide)⟩

/-- C6: the fixed cumulative aggregation keeps exactly the rows with a
present capacity between 10 and 300 inclusive, a present start year at least
2015 and a non-null type; its row index is the ascending list of start
years; and on the example table of two 2015 Coal rows and one 2016 Gas row
the counts are 2015 ↦ Coal 2, Gas 0 / 2016 ↦ Coal 0, Gas 1 and the
cumulative sums are 2015 ↦ Coal 2, Gas 0 / 2016 ↦ Coal 2, Gas 1. -/
theorem c6_cumulative_aggregation :
    (∀ (df : List PlantRow) (r : PlantRow),
        r ∈ valid_plants df ↔
          r ∈ df ∧ (∃ c, r.cap = some c ∧ 10 ≤ c ∧ c ≤ 300) ∧
            (∃ y, r.year = some y ∧ 2015 ≤ y) ∧ r.ptype.isSome = true) ∧
      (∀ df : List PlantRow,
        List.Sorted (fun a b => a ≤ b) (startYears (valid_plants df))) ∧
      annual exDf =
        [(2015, [("Coal", 2), ("Gas", 0)]), (2016, [("Coal", 0), ("Gas", 1)])] ∧
      cumulative exDf =
        [(2015, [("Coal", 2), ("Gas", 0)]), (2016, [("Coal", 2), ("Gas", 1)])] := by
  refine ⟨?_, ?_, by decide, by decide⟩
  · intro df r
    rw [valid_plants, List.mem_filter]
    obtain ⟨cap, year, ptype⟩ := r
    cases cap <;> cases year <;> cases ptype <;>
      simp [keepPlant, and_assoc]
  · intro df
    exact List.sorted_insertionSort _ _

/-- C8 counterexample: the exported grid of a plain one-row filtered table is
not the index-free grid the claim describes — `to_excel(writer, index=True)`
writes the synthetic integer index label `"0"` as a leading column. -/
theorem c8_filtered_export_includes_synthetic_index :
    decide (to_excel_bytes filteredFrameEx = specNoIndexExport filteredFrameEx) = false ∧
      to_excel_bytes filteredFrameEx = [["", "Country"], ["0", "X"]] := by
  decide

/-- Mapping `head?` over rows that were each prefixed with their index label
recovers the labels. -/
theorem map_head?_zipWith_cons (a : List String) (b : List (List String))
    (h : a.length = b.length) :
    (List.zipWith (fun i r => i :: r) a b).map List.head? = a.map some := by
  induction a generalizing b with
  | nil => simp
  | cons x a ih =>
    cases b with
    | nil => simp at h
    | cons y b =>
      simp only [List.length_cons, Nat.succ_inj] at h
      simp [ih b h]

/-- C8 amended: `to_excel_bytes` writes the row index unconditionally — the
first cell of every output row is the index name followed by the index
labels, for the pivot (where the claim already said the index is retained)
and for the plain filtered table alike. -/
theorem c8_amended_index_always_written (f : Frame)
    (h : f.indexCells.length = f.rows.length) :
    (to_excel_bytes f).map List.head? =
      some f.indexName :: f.indexCells.map some := by
  rw [to_excel_bytes]
  simp [map_head?_zipWith_cons f.indexCells f.rows h]

/-- Witness for the amended C8 at the one-row filtered table. -/
theorem c8_witness :
    filteredFrameEx.indexCells.length = filteredFrameEx.rows.length ∧
      (to_excel_bytes filteredFrameEx).map List.head? = [some "", some "0"] :=
  ⟨by decide,
    (c8_amended_index_always_written filteredFrameEx (by decide)).trans (by decide)⟩

/-- C9: in the `GEMScan_FINAL_GUARANTEED_FIXED.py` draft the
cumulative-by-type block never renders its chart and never offers its
download, on any input table: the plotting code sits inside the
`if type_col is None:` branch, where the column selection with the `None`
label raises `KeyError` before the plot, and a table that does have a type
column runs none of the block's body. -/
theorem c9_final_cumulative_chart_unreachable (t : PyTable) :
    (cumulativeBlockFinal t).contains CStep.renderChart = false ∧
      (cumulativeBlockFinal t).contains CStep.offerDownload = false := by
  unfold cumulativeBlockFinal
  cases h : List.find? (fun c => t.columns.contains c)
      ["Type", "Plant Type", "Technology"] with
  | some c => exact ⟨rfl, rfl⟩
  | none => exact ⟨rfl, rfl⟩

/-- A string that ends with a non-empty suffix ends with that suffix's last
character. -/
theorem pyEndsWith_getLast? (s suf : String) (h : pyEndsWith s suf = true)
    (hne : suf.data ≠ []) :
    s.data.getLast? = suf.data.getLast? := by
  have hsuf : suf.data <:+ s.data := of_decide_eq_true h
  obtain ⟨t, ht⟩ := hsuf
  rw [← ht, List.getLast?_append_of_ne_nil _ hne]

/-- A key ending with `_search` ends with the character `h`, so it ends with
none of `_select_all`, `_multiselect`, `_logic` and is never reset. -/
theorem searchKeySurvives (k : String) (h : pyEndsWith k "_search" = true) :
    isResetKey k = false := by
  have hk : k.data.getLast? = some 'h' := by
    rw [pyEndsWith_getLast? k "_search" h (by decide)]
    decide
  have h1 : pyEndsWith k "_select_all" = false := by
    cases hx : pyEndsWith k "_select_all" with
    | false => rfl
    | true =>
      have hc := pyEndsWith_getLast? k "_select_all" hx (by decide)
      rw [hk] at hc
      exact absurd hc (by decide)
  have h2 : pyEndsWith k "_multiselect" = false := by
    cases hx : pyEndsWith k "_multiselect" with
    | false => rfl
    | true =>
      have hc := pyEndsWith_getLast? k "_multiselect" hx (by decide)
      rw [hk] at hc
      exact absurd hc (by decide)
  have h3 : pyEndsWith k "_logic" = false := by
    cases hx : pyEndsWith k "_logic" with
    | false => rfl
    | true =>
      have hc := pyEndsWith_getLast? k "_logic" hx (by decide)
      rw [hk] at hc
      exact absurd hc (by decide)
  simp [isResetKey, h1, h2, h3]

/-- C10: the reset handler removes exactly the session-state entries whose
keys end with `_select_all`, `_multiselect` or `_logic`, keeping every other
entry with its value; a key ending with `_search` never matches, so search
terms survive a reset. -/
theorem c10_reset_deletes_only_filter_keys (state : List (String × String)) :
    (∀ kv : String × String,
        kv ∈ resetAllFilters state ↔ kv ∈ state ∧ isResetKey kv.1 = false) ∧
      ∀ k : String, pyEndsWith k "_search" = true → isResetKey k = false := by
  constructor
  · intro kv
    simp [resetAllFilters, List.mem_filter]
  · intro k h
    exact searchKeySurvives k h

/-- Witness for C10: a `_search` entry survives while a `_multiselect` entry
is removed. -/
theorem c10_witness :
    (("Country_search", "Coal") ∈
        resetAllFilters [("Country_search", "Coal"), ("Country_multiselect", "x")] ↔
      ("Country_search", "Coal") ∈
          [("Country_search", "Coal"), ("Country_multiselect", "x")] ∧
        isResetKey "Country_search" = false) ∧
      isResetKey "Country_search" = false :=
  ⟨(c10_reset_deletes_only_filter_keys
      [("Country_search", "Coal"), ("Country_multiselect", "x")]).1
      ("Country_search", "Coal"),
    (c10_reset_deletes_only_filter_keys []).2 "Country_search" (by decide)⟩

end ExcelAnalyzer
